import Mathlib

/-
  Verification development for the interactive-terminal session engine
  (src/interactive/server.py).

  The engine state and operations are embedded shallowly:
  * a session is the triple (shared_buffer, seek_position, search_pos) that
    `_wait_for_output_or_prompt`, `advance_session_buffer_to_end` and
    `_send_command` read and write; the buffer is a `List Char` (Python str);
  * Python `str.find(pat, start)` is `pyFind` (`none` stands for `-1`);
  * the polling loop of `_wait_for_output_or_prompt` is driven by a `feed`
    list: one element per loop iteration, holding the data that
    `capture_output` returned in that iteration (possibly empty, which in the
    source leads to a 0.1 s sleep and another iteration); an exhausted feed
    is the wall-clock timeout, `feed = []` a call whose deadline has already
    passed before the first iteration;
  * the session table of `_start_session` / `_exit_session` is an association
    list in Python-dict insertion order, together with the set of open pty
    descriptors, so that descriptor release (or its absence) is visible.
-/

set_option maxHeartbeats 1000000

namespace InteractiveTerminal

/-- Python slice `s[a:b]` for nonnegative `a`, `b` (empty when `a ≥ b`). -/
def pySlice (s : List Char) (a b : Nat) : List Char :=
  (s.take b).drop a

/-- Whether `pat` occurs in `buf` starting exactly at index `i`:
Python `buf[i:i+len(pat)] == pat`. -/
def matchesAt (buf pat : List Char) (i : Nat) : Bool :=
  decide ((buf.drop i).take pat.length = pat)

/-- Scan indices `i, i+1, …` (at most `fuel` of them) for the first match. -/
def pyFindAux (buf pat : List Char) : Nat → Nat → Option Nat
  | _, 0 => none
  | i, fuel + 1 => if matchesAt buf pat i then some i else pyFindAux buf pat (i + 1) fuel

/-- Python `buf.find(pat, start)`; `none` models the `-1` result.
Indices `start, …, len(buf)` are candidates (the empty pattern matches at
any position up to and including the end of the string, and `find` returns
`-1` whenever `start > len(buf)`). -/
def pyFind (buf pat : List Char) (start : Nat) : Option Nat :=
  pyFindAux buf pat start (buf.length + 1 - start)

/-- The session state manipulated by the wait engine: the fields
`shared_buffer`, `seek_position`, `search_pos` of the session tuple. -/
structure Sess where
  buffer : List Char
  seek : Nat
  search : Nat
deriving DecidableEq

/-- The three `status` strings `_wait_for_output_or_prompt` can return for a
session that is in the store. -/
inductive WaitStatus where
  | prompt_detected
  | prompt_timeout_with_bytes_received
  | prompt_timeout_no_bytes_received
deriving DecidableEq

/-- The structured dict `_wait_for_output_or_prompt` returns (the free-text
`message` field is omitted). -/
structure WaitResult where
  status : WaitStatus
  prompt : Option (List Char)
  captured_output : Option (List Char)
  remaining_bytes : Nat
deriving DecidableEq

/-- The whitespace test of the post-prompt consumption loop:
`shared_buffer[whitespace_end] in (' ', '\t', '\r', '\n')`. -/
def isPromptWs (c : Char) : Bool :=
  c == ' ' || c == '\t' || c == '\r' || c == '\n'

/-- The `while whitespace_end < len(shared_buffer) and … : whitespace_end += 1`
loop: the first index at or after `pos` holding a non-whitespace character. -/
def consumeWs (buf : List Char) (pos : Nat) : Nat :=
  pos + ((buf.drop pos).takeWhile isPromptWs).length

/-- The `for prompt in prompts` scan: the first prompt in list order whose
`find` from `search` succeeds, together with its match index.  Later prompts
are not consulted once an earlier one has any occurrence. -/
def scanPrompts (buf : List Char) (search : Nat) : List (List Char) → Option (List Char × Nat)
  | [] => none
  | p :: ps =>
    match pyFind buf p search with
    | some i => some (p, i)
    | none => scanPrompts buf search ps

/-- The body of the `if prompt_index != -1` branch: advance `seek_position`
past the match (and past following whitespace when requested), set
`search_pos = seek_position`, store the session, and build the
`prompt_detected` result. -/
def matchResult (s : Sess) (startPos : Nat) (returnOutput consumeFlag : Bool)
    (p : List Char) (i : Nat) : Sess × WaitResult :=
  let seek1 := i + p.length
  let seek2 := if consumeFlag then consumeWs s.buffer seek1 else seek1
  let s2 : Sess := ⟨s.buffer, seek2, seek2⟩
  let captured := if returnOutput then some (pySlice s.buffer startPos seek2) else none
  (s2, ⟨.prompt_detected, some p, captured, s.buffer.length - seek2⟩)

/-- The code after the `while` loop: `seek_position = len(shared_buffer)`,
`search_pos` untouched, and the status chosen by
`if captured_output and len(captured_output) > 0` (so a `None`
`captured_output`, i.e. `return_output=False`, always selects the
no-bytes status). -/
def timeoutResult (s : Sess) (startPos : Nat) (returnOutput : Bool) : Sess × WaitResult :=
  let s2 : Sess := ⟨s.buffer, s.buffer.length, s.search⟩
  let captured := if returnOutput then some (pySlice s.buffer startPos s.buffer.length) else none
  let gotBytes := match captured with
    | some c => !c.isEmpty
    | none => false
  (s2, ⟨if gotBytes then .prompt_timeout_with_bytes_received
        else .prompt_timeout_no_bytes_received, none, captured, 0⟩)

/-- The polling loop of `_wait_for_output_or_prompt`: each feed element is the
string one `capture_output` call returned (appended to the buffer), after
which the prompt scan runs; an exhausted feed is the timeout exit. -/
def waitLoop (s : Sess) (startPos : Nat) (prompts : List (List Char))
    (returnOutput consumeFlag : Bool) : List (List Char) → Sess × WaitResult
  | [] => timeoutResult s startPos returnOutput
  | d :: ds =>
    let s1 : Sess := ⟨s.buffer ++ d, s.seek, s.search⟩
    match scanPrompts s1.buffer s1.search prompts with
    | some pi => matchResult s1 startPos returnOutput consumeFlag pi.1 pi.2
    | none => waitLoop s1 startPos prompts returnOutput consumeFlag ds

/-- `_wait_for_output_or_prompt` on a session that is in the store:
`start_pos = seek_position` is recorded and the loop is entered. -/
def waitForOutputOrPrompt (s : Sess) (prompts : List (List Char))
    (returnOutput consumeFlag : Bool) (feed : List (List Char)) : Sess × WaitResult :=
  waitLoop s s.seek prompts returnOutput consumeFlag feed

/-- `advance_session_buffer_to_end`: capture pending data `d`, append it, and
set both cursors to the new end of the buffer. -/
def advanceToEnd (s : Sess) (d : List Char) : Sess :=
  ⟨s.buffer ++ d, (s.buffer ++ d).length, (s.buffer ++ d).length⟩

/-- One caller-visible operation on a stored session, as far as it touches the
(buffer, seek, search) state: a wait (with its data feed), a preflushing send
(`preflush=True` runs `advance_session_buffer_to_end`), or a plain send. -/
inductive Op where
  | wait (prompts : List (List Char)) (returnOutput consumeFlag : Bool) (feed : List (List Char))
  | sendPre (d : List Char)
  | sendOnly
deriving DecidableEq

/-- The session-state effect of one operation. -/
def step (s : Sess) : Op → Sess
  | .wait ps ro cw feed => (waitForOutputOrPrompt s ps ro cw feed).1
  | .sendPre d => advanceToEnd s d
  | .sendOnly => s

/-- The documented session invariant: `search_pos ≤ seek_position ≤ len(buffer)`. -/
def Inv (s : Sess) : Prop :=
  s.search ≤ s.seek ∧ s.seek ≤ s.buffer.length

instance (s : Sess) : Decidable (Inv s) := by
  unfold Inv
  infer_instance

/-- The state `_start_session` registers: empty buffer, both positions zero. -/
def initSess : Sess := ⟨[], 0, 0⟩

/-- Engine-level state: the `sessions` dict in insertion order — each entry is
(session id, master descriptor, buffer state) — together with the set of open
pty descriptors and the next descriptor number the OS will hand out. -/
structure EngineState where
  sessions : List (Nat × Nat × Sess)
  openFds : List Nat
  nextFd : Nat
deriving DecidableEq

/-- `sessions[k] = v` on the insertion-ordered association list: overwrite in
place when the key exists, append otherwise. -/
def dictInsert (m : List (Nat × Nat × Sess)) (k : Nat) (v : Nat × Sess) :
    List (Nat × Nat × Sess) :=
  if m.any (fun kv => kv.1 == k) then
    m.map (fun kv => if kv.1 == k then (k, v) else kv)
  else m ++ [(k, v)]

/-- How the `subprocess.Popen` call in `_start_session` ends: success,
`FileNotFoundError`, or any other exception. -/
inductive SpawnOutcome where
  | ok
  | fileNotFound
  | otherError
deriving DecidableEq

/-- The three shapes of `_start_session` return value: the session-started
message with its id, the command-not-found error, or the generic failure
carrying the OS error. -/
inductive StartResult where
  | started (sid : Nat)
  | commandNotFound
  | launchFailed
deriving DecidableEq

/-- `_start_session`: choose `session_id = len(sessions) + 1`, allocate the
pty pair with `pty.openpty()` (two fresh descriptors), then spawn.  On
`FileNotFoundError` or any other exception the function returns the error
string at once: the session is not registered, and neither descriptor is
closed.  On success the session is registered with an empty buffer and both
positions zero.  (Log-file creation touches no engine state and is omitted.) -/
def startSession (st : EngineState) (outcome : SpawnOutcome) : EngineState × StartResult :=
  let sid := st.sessions.length + 1
  let master := st.nextFd
  let st1 : EngineState := ⟨st.sessions, st.openFds ++ [master, master + 1], st.nextFd + 2⟩
  match outcome with
  | .fileNotFound => (st1, .commandNotFound)
  | .otherError => (st1, .launchFailed)
  | .ok => (⟨dictInsert st1.sessions sid (master, initSess), st1.openFds, st1.nextFd⟩,
            .started sid)

/-- `_exit_session`: pop the session (returning `false` for an unknown id),
terminate the process, and close the master descriptor in the `finally`
block. -/
def exitSession (st : EngineState) (sid : Nat) : EngineState × Bool :=
  match st.sessions.find? (fun kv => kv.1 == sid) with
  | none => (st, false)
  | some kv =>
    (⟨st.sessions.filter (fun kv2 => kv2.1 != sid),
      st.openFds.filter (fun fd => fd != kv.2.1), st.nextFd⟩, true)

/-- What one `os.read` attempt in `capture_output` does: return a (possibly
empty) string — `BlockingIOError` is caught and becomes the empty string — or
raise some other `OSError`, identified here by its error code, which
`capture_output` does not catch. -/
inductive ReadEvent where
  | data (d : List Char)
  | readErr (code : Nat)
deriving DecidableEq

/-- The polling loop of `_wait_for_output_or_prompt` with the read outcomes
made explicit: a raising read propagates out of the loop (and out of
`_wait_for_output_or_prompt`, which has no handler) as an exception, modelled
by `Except.error` with the error code. -/
def waitLoopE (s : Sess) (startPos : Nat) (prompts : List (List Char))
    (returnOutput consumeFlag : Bool) : List ReadEvent → Except Nat (Sess × WaitResult)
  | [] => .ok (timeoutResult s startPos returnOutput)
  | .readErr e :: _ => .error e
  | .data d :: evs =>
    let s1 : Sess := ⟨s.buffer ++ d, s.seek, s.search⟩
    match scanPrompts s1.buffer s1.search prompts with
    | some pi => .ok (matchResult s1 startPos returnOutput consumeFlag pi.1 pi.2)
    | none => waitLoopE s1 startPos prompts returnOutput consumeFlag evs

/-- How the `os.write` call in `_send_command` ends. -/
inductive WriteOutcome where
  | ok
  | osError
deriving DecidableEq

/-- The string results `_send_command` can produce for a stored session. -/
inductive SendResult where
  | sent
  | sendFailed
deriving DecidableEq

/-- `_send_command` on a stored session: run
`advance_session_buffer_to_end` when `preflush` is set (capturing pending
data `d`), then write; `OSError` from the write is caught by the
`try/except OSError` and turned into the failure string, so no outcome of the
write escapes as an exception (`Except.error` is unreachable by
construction, mirroring that every failure path of the source returns). -/
def sendCommandSess (s : Sess) (preflush : Bool) (d : List Char)
    (w : WriteOutcome) : Except Nat (Sess × SendResult) :=
  let s1 := if preflush then advanceToEnd s d else s
  match w with
  | .ok => .ok (s1, .sent)
  | .osError => .ok (s1, .sendFailed)

/-! ### Properties of the find primitive -/

theorem matchesAt_iff {buf pat : List Char} {i : Nat} :
    matchesAt buf pat i = true ↔ (buf.drop i).take pat.length = pat := by
  simp [matchesAt]

theorem matchesAt_length_le {buf pat : List Char} {i : Nat}
    (h : matchesAt buf pat i = true) (hi : i ≤ buf.length) :
    i + pat.length ≤ buf.length := by
  have he := matchesAt_iff.mp h
  have hl := congrArg List.length he
  simp [List.length_take, List.length_drop] at hl
  omega

theorem pyFindAux_sound {buf pat : List Char} :
    ∀ (fuel i j : Nat), pyFindAux buf pat i fuel = some j →
      i ≤ j ∧ j < i + fuel ∧ matchesAt buf pat j = true ∧
        ∀ k, i ≤ k → k < j → matchesAt buf pat k = false := by
  intro fuel
  induction fuel with
  | zero => intro i j h; simp [pyFindAux] at h
  | succ n ih =>
    intro i j h
    unfold pyFindAux at h
    by_cases hm : matchesAt buf pat i = true
    · rw [if_pos hm] at h
      obtain rfl : i = j := by injection h
      exact ⟨Nat.le_refl _, by omega, hm, fun k hk1 hk2 => absurd (Nat.lt_of_le_of_lt hk1 hk2)
        (Nat.lt_irrefl _)⟩
    · rw [if_neg hm] at h
      obtain ⟨h1, h2, h3, h4⟩ := ih (i + 1) j h
      refine ⟨by omega, by omega, h3, fun k hk1 hk2 => ?_⟩
      rcases Nat.eq_or_lt_of_le hk1 with rfl | hk
      · exact Bool.eq_false_iff.mpr hm
      · exact h4 k hk hk2

theorem pyFind_sound {buf pat : List Char} {start j : Nat}
    (h : pyFind buf pat start = some j) :
    start ≤ j ∧ j ≤ buf.length ∧ j + pat.length ≤ buf.length ∧
      (buf.drop j).take pat.length = pat ∧
      ∀ k, start ≤ k → k < j → matchesAt buf pat k = false := by
  unfold pyFind at h
  obtain ⟨h1, h2, h3, h4⟩ := pyFindAux_sound _ _ _ h
  have hj : j ≤ buf.length := by omega
  exact ⟨h1, hj, matchesAt_length_le h3 hj, matchesAt_iff.mp h3, h4⟩

theorem pyFind_empty {buf : List Char} {start : Nat} (h : start ≤ buf.length) :
    pyFind buf [] start = some start := by
  unfold pyFind
  have hf : buf.length + 1 - start = (buf.length - start) + 1 := by omega
  rw [hf]
  simp [pyFindAux, matchesAt]

/-! ### Properties of the prompt scan -/

theorem scanPrompts_sound {buf : List Char} {sp : Nat} :
    ∀ {ps : List (List Char)} {p : List Char} {i : Nat},
      scanPrompts buf sp ps = some (p, i) →
      ∃ pre post, ps = pre ++ p :: post ∧ (∀ q ∈ pre, pyFind buf q sp = none) ∧
        pyFind buf p sp = some i := by
  intro ps
  induction ps with
  | nil => intro p i h; simp [scanPrompts] at h
  | cons q qs ih =>
    intro p i h
    unfold scanPrompts at h
    cases hq : pyFind buf q sp with
    | some k =>
      rw [hq] at h
      obtain ⟨rfl, rfl⟩ : q = p ∧ k = i := by
        have := h
        simp at this
        exact this
      exact ⟨[], qs, rfl, by simp, hq⟩
    | none =>
      rw [hq] at h
      obtain ⟨pre, post, hps, hpre, hp⟩ := ih h
      exact ⟨q :: pre, post, by simp [hps], by
        intro r hr
        rcases List.mem_cons.mp hr with rfl | hr2
        · exact hq
        · exact hpre r hr2, hp⟩

theorem scanPrompts_append_none {buf : List Char} {sp : Nat} {pre : List (List Char)}
    (h : ∀ q ∈ pre, pyFind buf q sp = none) (ps : List (List Char)) :
    scanPrompts buf sp (pre ++ ps) = scanPrompts buf sp ps := by
  induction pre with
  | nil => simp
  | cons q qs ih =>
    have hq : pyFind buf q sp = none := h q (List.mem_cons_self _ _)
    simp only [List.cons_append, scanPrompts, hq]
    exact ih (fun r hr => h r (List.mem_cons_of_mem _ hr))

/-! ### Properties of whitespace consumption and slicing -/

theorem le_consumeWs (buf : List Char) (pos : Nat) : pos ≤ consumeWs buf pos :=
  Nat.le_add_right _ _

theorem consumeWs_le {buf : List Char} {pos : Nat} (h : pos ≤ buf.length) :
    consumeWs buf pos ≤ buf.length := by
  unfold consumeWs
  have h1 : ((buf.drop pos).takeWhile isPromptWs).length ≤ (buf.drop pos).length :=
    (List.takeWhile_sublist _).length_le
  simp [List.length_drop] at h1
  omega

theorem pySlice_append {A ext : List Char} {b : Nat} (h : A.length ≤ b) :
    pySlice (A ++ ext) A.length b = ext.take (b - A.length) := by
  unfold pySlice
  rw [List.take_append_eq_append_take, List.take_of_length_le h, List.drop_left]

/-! ### The shape of every wait-loop run -/

theorem waitLoop_buffer_ext (sp : Nat) (ps : List (List Char)) (ro cw : Bool) :
    ∀ (feed : List (List Char)) (s : Sess),
      ∃ ext, (waitLoop s sp ps ro cw feed).1.buffer = s.buffer ++ ext := by
  intro feed
  induction feed with
  | nil => intro s; exact ⟨[], by simp [waitLoop, timeoutResult]⟩
  | cons d ds ih =>
    intro s
    cases hscan : scanPrompts (s.buffer ++ d) s.search ps with
    | some pi =>
      refine ⟨d, ?_⟩
      simp [waitLoop, hscan, matchResult]
    | none =>
      obtain ⟨ext, hext⟩ := ih ⟨s.buffer ++ d, s.seek, s.search⟩
      refine ⟨d ++ ext, ?_⟩
      simp only [waitLoop, hscan]
      simpa using hext

theorem waitLoop_cases (sp : Nat) (ps : List (List Char)) (ro cw : Bool) :
    ∀ (feed : List (List Char)) (s s2 : Sess) (r : WaitResult),
      waitLoop s sp ps ro cw feed = (s2, r) →
      (r.status ≠ .prompt_detected ∧
        s2.seek = s2.buffer.length ∧ s2.search = s.search ∧ r.prompt = none ∧
        r.captured_output = if ro then some (pySlice s2.buffer sp s2.seek) else none) ∨
      (r.status = .prompt_detected ∧
        ∃ p i, r.prompt = some p ∧ pyFind s2.buffer p s.search = some i ∧
          s2.seek = (if cw then consumeWs s2.buffer (i + p.length) else i + p.length) ∧
          s2.search = s2.seek ∧ i + p.length ≤ s2.seek ∧ s.search ≤ i ∧
          i + p.length ≤ s2.buffer.length ∧
          r.captured_output = if ro then some (pySlice s2.buffer sp s2.seek) else none) := by
  intro feed
  induction feed with
  | nil =>
    intro s s2 r h
    left
    simp only [waitLoop, timeoutResult] at h
    obtain ⟨h1, h2⟩ := Prod.mk.inj h
    subst h1
    subst h2
    refine ⟨?_, rfl, rfl, rfl, rfl⟩
    cases ro
    · simp
    · simp
      split <;> simp
  | cons d ds ih =>
    intro s s2 r h
    cases hscan : scanPrompts (s.buffer ++ d) s.search ps with
    | some pi =>
      right
      simp only [waitLoop, hscan] at h
      obtain ⟨pre, post, _, _, hfind⟩ := scanPrompts_sound hscan
      simp only [matchResult] at h
      obtain ⟨h1, h2⟩ := Prod.mk.inj h
      subst h1
      subst h2
      obtain ⟨hs1, _, hlen, _, _⟩ := pyFind_sound hfind
      refine ⟨rfl, pi.1, pi.2, rfl, hfind, rfl, rfl, ?_, hs1, hlen, rfl⟩
      cases cw
      · simp
      · simpa using le_consumeWs _ _
    | none =>
      have h2 : waitLoop ⟨s.buffer ++ d, s.seek, s.search⟩ sp ps ro cw ds = (s2, r) := by
        simpa only [waitLoop, hscan] using h
      simpa using ih ⟨s.buffer ++ d, s.seek, s.search⟩ s2 r h2

/-! ### Per-operation facts derived from the loop shape -/

theorem wait_buffer_ext {s s2 : Sess} {ps : List (List Char)} {ro cw : Bool}
    {feed : List (List Char)} {r : WaitResult}
    (hw : waitForOutputOrPrompt s ps ro cw feed = (s2, r)) :
    ∃ ext, s2.buffer = s.buffer ++ ext := by
  unfold waitForOutputOrPrompt at hw
  obtain ⟨ext, hext⟩ := waitLoop_buffer_ext s.seek ps ro cw feed s
  exact ⟨ext, by rw [← hext, hw]⟩

theorem wait_Inv {s s2 : Sess} {ps : List (List Char)} {ro cw : Bool}
    {feed : List (List Char)} {r : WaitResult}
    (h : Inv s) (hw : waitForOutputOrPrompt s ps ro cw feed = (s2, r)) : Inv s2 := by
  obtain ⟨h1, h2⟩ := h
  obtain ⟨ext, hext⟩ := wait_buffer_ext hw
  have hlen : s.buffer.length ≤ s2.buffer.length := by
    rw [hext]; simp
  unfold waitForOutputOrPrompt at hw
  rcases waitLoop_cases s.seek ps ro cw feed s s2 r hw with
    ⟨_, hseek, hsearch, _, _⟩ | ⟨_, p, i, _, _, hseek, hsearch, _, _, hplen, _⟩
  · constructor
    · rw [hsearch, hseek]; omega
    · rw [hseek]
  · constructor
    · rw [hsearch]
    · rw [hseek]
      cases cw
      · simpa using hplen
      · simpa using consumeWs_le hplen

theorem wait_search_mono {s s2 : Sess} {ps : List (List Char)} {ro cw : Bool}
    {feed : List (List Char)} {r : WaitResult}
    (hw : waitForOutputOrPrompt s ps ro cw feed = (s2, r)) : s.search ≤ s2.search := by
  unfold waitForOutputOrPrompt at hw
  rcases waitLoop_cases s.seek ps ro cw feed s s2 r hw with
    ⟨_, _, hsearch, _, _⟩ | ⟨_, p, i, _, _, _, hsearch, hple, hile, _, _⟩
  · omega
  · omega

theorem wait_seek_mono {s s2 : Sess} {ps : List (List Char)} {ro cw : Bool}
    {feed : List (List Char)} {r : WaitResult}
    (hse : s.search = s.seek) (h : Inv s)
    (hw : waitForOutputOrPrompt s ps ro cw feed = (s2, r)) : s.seek ≤ s2.seek := by
  obtain ⟨_, h2⟩ := h
  obtain ⟨ext, hext⟩ := wait_buffer_ext hw
  have hlen : s.buffer.length ≤ s2.buffer.length := by
    rw [hext]; simp
  unfold waitForOutputOrPrompt at hw
  rcases waitLoop_cases s.seek ps ro cw feed s s2 r hw with
    ⟨_, hseek, _, _, _⟩ | ⟨_, p, i, _, _, _, hsearch, hple, hile, _, _⟩
  · omega
  · omega

theorem step_Inv {s : Sess} (op : Op) (h : Inv s) : Inv (step s op) := by
  cases op with
  | sendOnly => exact h
  | sendPre d => exact ⟨Nat.le_refl _, Nat.le_refl _⟩
  | wait ps ro cw feed =>
    rcases hw : waitForOutputOrPrompt s ps ro cw feed with ⟨s2, r⟩
    have : step s (.wait ps ro cw feed) = s2 := by simp [step, hw]
    rw [this]
    exact wait_Inv h hw

theorem step_search_mono {s : Sess} (op : Op) (h : Inv s) :
    s.search ≤ (step s op).search := by
  cases op with
  | sendOnly => exact Nat.le_refl _
  | sendPre d =>
    simp only [step, advanceToEnd]
    calc s.search ≤ s.buffer.length := Nat.le_trans h.1 h.2
      _ ≤ (s.buffer ++ d).length := by simp
  | wait ps ro cw feed =>
    rcases hw : waitForOutputOrPrompt s ps ro cw feed with ⟨s2, r⟩
    have : step s (.wait ps ro cw feed) = s2 := by simp [step, hw]
    rw [this]
    exact wait_search_mono hw

theorem step_seek_mono {s : Sess} (op : Op) (hse : s.search = s.seek) (h : Inv s) :
    s.seek ≤ (step s op).seek := by
  cases op with
  | sendOnly => exact Nat.le_refl _
  | sendPre d =>
    simp only [step, advanceToEnd]
    calc s.seek ≤ s.buffer.length := h.2
      _ ≤ (s.buffer ++ d).length := by simp
  | wait ps ro cw feed =>
    rcases hw : waitForOutputOrPrompt s ps ro cw feed with ⟨s2, r⟩
    have : step s (.wait ps ro cw feed) = s2 := by simp [step, hw]
    rw [this]
    exact wait_seek_mono hse h hw

/-! ### Claim C1 -/

/-- Claim C1 as stated is false: the scan does not return the match with the
lowest start index.  With buffer `"ab"`, `search_position = 0` and markers
`["b", "a"]`, the scan returns the marker `"b"` at index 1 even though the
marker `"a"` in the list matches at the strictly lower index 0. -/
theorem C1_counterexample :
    ¬ (∀ (buf : List Char) (sp : Nat) (ps : List (List Char)) (p : List Char) (i : Nat),
        scanPrompts buf sp ps = some (p, i) →
        ∀ q ∈ ps, ∀ j, pyFind buf q sp = some j → i ≤ j) := by
  intro hclaim
  have h := hclaim ['a', 'b'] 0 [['b'], ['a']] ['b'] 1 (by decide) ['a'] (by decide) 0 (by decide)
  omega

/-- Claim C1 (amended): the match returned by a scan pass is for the first
marker in the caller-supplied list that has any occurrence at or after
`search_position` (all earlier markers have none), at that marker's lowest
occurrence index at or after `search_position`; relative start indices of
later markers play no role. -/
theorem C1_first_listed_marker_wins {buf : List Char} {sp : Nat}
    {ps : List (List Char)} {p : List Char} {i : Nat}
    (h : scanPrompts buf sp ps = some (p, i)) :
    (∃ pre post, ps = pre ++ p :: post ∧ ∀ q ∈ pre, pyFind buf q sp = none) ∧
    pyFind buf p sp = some i ∧ sp ≤ i ∧
    (buf.drop i).take p.length = p ∧
    ∀ k, sp ≤ k → k < i → matchesAt buf p k = false := by
  obtain ⟨pre, post, hps, hpre, hp⟩ := scanPrompts_sound h
  obtain ⟨h1, _, _, h4, h5⟩ := pyFind_sound hp
  exact ⟨⟨pre, post, hps, hpre⟩, hp, h1, h4, h5⟩

/-- Witness for C1 at the counterexample input: the scan on `"ab"` with
markers `["b", "a"]` returns `"b"` at its lowest occurrence, index 1. -/
theorem C1_first_listed_marker_wins_witness :
    (∃ pre post, [['b'], ['a']] = pre ++ ['b'] :: post ∧
      ∀ q ∈ pre, pyFind ['a', 'b'] q 0 = none) ∧
    pyFind ['a', 'b'] ['b'] 0 = some 1 ∧ 0 ≤ 1 ∧
    (['a', 'b'].drop 1).take (['b'] : List Char).length = ['b'] ∧
    ∀ k, 0 ≤ k → k < 1 → matchesAt ['a', 'b'] ['b'] k = false :=
  C1_first_listed_marker_wins (by decide)

/-! ### Claim C2 -/

/-- Claim C2: evaluation of the code at the failing input.  From a fresh
session, a wait with `return_output = False` and marker `"z"` during which the
byte `"x"` arrives and no marker matches, ends in timeout with status
`prompt_timeout_no_bytes_received` — although one byte was captured between
`start_position = 0` and the final `seek_position = 1` (the window
`buffer[0:1] = "x"` is nonempty), because the status test
`if captured_output and len(captured_output) > 0` sees the `None`
`captured_output` of `return_output=False`.  `seek_position` is advanced to
the end and `search_position` is unchanged, as the claim says. -/
theorem C2_code_evaluation :
    waitForOutputOrPrompt ⟨[], 0, 0⟩ [['z']] false true [['x']] =
      (⟨['x'], 1, 0⟩, ⟨.prompt_timeout_no_bytes_received, none, none, 0⟩) ∧
    pySlice ['x'] 0 1 = ['x'] := by decide

/-! ### Claim C3 -/

/-- Claim C3: evaluation of the code at the failing input.  `_start_session`
computes `session_id = len(sessions) + 1`, so after starting sessions 1 and 2
and exiting session 1, the next start also returns id 2 — the identifier of
the still-live second session — instead of a fresh, never-reused id. -/
theorem C3_code_evaluation :
    (startSession (startSession ⟨[], [], 0⟩ .ok).1 .ok).2 = .started 2 ∧
    (startSession
        (exitSession (startSession (startSession ⟨[], [], 0⟩ .ok).1 .ok).1 1).1 .ok).2
      = .started 2 := by decide

/-! ### Claim C4 -/

/-- Claim C4 as stated is false: `seek_position` is not monotonically
non-decreasing.  From a fresh session, a wait for `"z"` that times out after
`"xa"` arrived leaves `seek_position = 2` and `search_position = 0`; a
subsequent wait for `"x"` matches at index 0 and sets `seek_position = 1`,
strictly below the previously held value 2. -/
theorem C4_counterexample :
    (waitForOutputOrPrompt ⟨[], 0, 0⟩ [['z']] true true [['x', 'a']]).1.seek = 2 ∧
    (waitForOutputOrPrompt
        (waitForOutputOrPrompt ⟨[], 0, 0⟩ [['z']] true true [['x', 'a']]).1
        [['x']] true true [[]]).1.seek = 1 := by decide

/-- Claim C4 (amended): `seek_position` never decreases across an operation
(wait with any outcome, send with or without preflush) that starts in a state
with `search_position = seek_position` — the state left by session start, by
every match and by every preflush.  It can decrease only through a wait
that begins with `search_position < seek_position`, i.e. directly after a
timed-out wait. -/
theorem C4_seek_mono_from_sync (s : Sess) (op : Op)
    (hse : s.search = s.seek) (h : Inv s) :
    s.seek ≤ (step s op).seek :=
  step_seek_mono op hse h

/-- Witness for C4 (amended) at a concrete input: a wait on a fresh session
with one arriving chunk does not decrease `seek_position`. -/
theorem C4_seek_mono_from_sync_witness :
    (initSess).seek ≤ (step initSess (.wait [['x']] true true [['x', 'a']])).seek :=
  C4_seek_mono_from_sync initSess (.wait [['x']] true true [['x', 'a']]) rfl
    ⟨Nat.le_refl 0, Nat.le_refl 0⟩

/-! ### Claim C5 -/

/-- Claim C5: for every session, `0 ≤ search_position ≤ seek_position ≤
length(output_buffer)` holds after every completed operation: it holds in the
state `_start_session` registers and is preserved by every wait (any outcome),
preflushing send, and plain send.  The lower bound 0 is carried by the `Nat`
type of the positions. -/
theorem C5_invariant_preserved :
    Inv initSess ∧ ∀ (s : Sess) (op : Op), Inv s → Inv (step s op) :=
  ⟨⟨Nat.le_refl 0, Nat.le_refl 0⟩, fun _ op h => step_Inv op h⟩

/-- Witness for C5 at a concrete input: the invariant holds after a wait with
one arriving chunk on a fresh session. -/
theorem C5_invariant_preserved_witness :
    Inv (step initSess (.wait [['x']] true true [['x', 'a']])) :=
  C5_invariant_preserved.2 initSess (.wait [['x']] true true [['x', 'a']])
    ⟨Nat.le_refl 0, Nat.le_refl 0⟩

/-! ### Claim C6 -/

/-- Claim C6: a matched marker occurrence is never rematched.
`search_position` is monotonically non-decreasing across every operation
(on any session satisfying the C5 invariant), and whenever a wait returns
`prompt_detected`, the matched marker `p` occurs in the final buffer at some
index `i` at or after the scan start, and the new `search_position` is at
least `i + length p`, the index just past the matched substring — so no later
scan, which starts at or after the new `search_position`, can return the same
occurrence again. -/
theorem C6_matched_marker_never_rematched :
    (∀ (s : Sess) (op : Op), Inv s → s.search ≤ (step s op).search) ∧
    (∀ (s s2 : Sess) (ps : List (List Char)) (ro cw : Bool)
        (feed : List (List Char)) (r : WaitResult),
      waitForOutputOrPrompt s ps ro cw feed = (s2, r) →
      r.status = .prompt_detected →
      ∃ p i, r.prompt = some p ∧ pyFind s2.buffer p s.search = some i ∧
        s.search ≤ i ∧ i + p.length ≤ s2.search) := by
  constructor
  · exact fun _ op h => step_search_mono op h
  · intro s s2 ps ro cw feed r hw hst
    unfold waitForOutputOrPrompt at hw
    rcases waitLoop_cases s.seek ps ro cw feed s s2 r hw with
      ⟨hne, _⟩ | ⟨_, p, i, hp, hfind, _, hsearch, hple, hile, _, _⟩
    · exact absurd hst hne
    · exact ⟨p, i, hp, hfind, hile, by omega⟩

/-- Witness for C6 at a concrete input: a wait on buffer `"x"` matching the
marker `"x"` leaves `search_position` past the matched occurrence. -/
theorem C6_matched_marker_never_rematched_witness :
    (⟨['x'], 0, 0⟩ : Sess).search ≤ (step ⟨['x'], 0, 0⟩ (.wait [['x']] true true [[]])).search ∧
    ∃ p i,
      (⟨.prompt_detected, some ['x'], some ['x'], 0⟩ : WaitResult).prompt = some p ∧
      pyFind (⟨['x'], 1, 1⟩ : Sess).buffer p (⟨['x'], 0, 0⟩ : Sess).search = some i ∧
      (⟨['x'], 0, 0⟩ : Sess).search ≤ i ∧ i + p.length ≤ (⟨['x'], 1, 1⟩ : Sess).search :=
  ⟨C6_matched_marker_never_rematched.1 ⟨['x'], 0, 0⟩ (.wait [['x']] true true [[]])
      ⟨Nat.le_refl 0, Nat.zero_le 1⟩,
   C6_matched_marker_never_rematched.2 ⟨['x'], 0, 0⟩ ⟨['x'], 1, 1⟩ [['x']] true true [[]]
      ⟨.prompt_detected, some ['x'], some ['x'], 0⟩ (by decide) rfl⟩

/-! ### Claim C7 -/

/-- Claim C7 as stated is false in its resource part: on a spawn failure the
already-allocated pty descriptor pair is not released.  Starting from a fresh
engine state (no open descriptors, next descriptor 0), a
`FileNotFoundError` spawn produces the command-not-found result and registers
no session — but descriptors 0 and 1, allocated by `pty.openpty()` for the
attempt, remain open. -/
theorem C7_counterexample :
    (startSession ⟨[], [], 0⟩ .fileNotFound).2 = .commandNotFound ∧
    (startSession ⟨[], [], 0⟩ .fileNotFound).1.sessions = [] ∧
    (startSession ⟨[], [], 0⟩ .fileNotFound).1.openFds = [0, 1] := by decide

/-- Claim C7 (amended): for every `start_session` call whose spawn fails, the
result is the command-not-found failure when the executable cannot be located
and the launch-failed failure otherwise; in both cases no session is
registered in the store — but the terminal descriptor pair already allocated
for the attempt is NOT released: the master descriptor stays open. -/
theorem C7_spawn_failure (st : EngineState) :
    ((startSession st .fileNotFound).2 = .commandNotFound ∧
      (startSession st .fileNotFound).1.sessions = st.sessions ∧
      st.nextFd ∈ (startSession st .fileNotFound).1.openFds) ∧
    ((startSession st .otherError).2 = .launchFailed ∧
      (startSession st .otherError).1.sessions = st.sessions ∧
      st.nextFd ∈ (startSession st .otherError).1.openFds) := by
  refine ⟨⟨rfl, rfl, ?_⟩, ⟨rfl, rfl, ?_⟩⟩ <;> simp [startSession]

/-! ### Claim C8 -/

/-- Claim C8 as stated is false for the wait path: a read error other than
would-block is not reported as a structured result.  `capture_output` catches
only `BlockingIOError`, and `_wait_for_output_or_prompt` has no handler, so a
raising read propagates as an uncaught exception — `Except.error` in the
model — here for OS error code 5 (EIO) on the first read of a wait. -/
theorem C8_counterexample :
    waitLoopE ⟨[], 0, 0⟩ 0 [['z']] true true [.readErr 5] = .error 5 := rfl

/-- Claim C8 (amended): a read error other than would-block raised during a
wait propagates out of the wait call as an uncaught exception (never as a
structured result), while `_send_command` on a stored session returns a
structured result for every write outcome — its `try/except OSError` catches
the only failure its write can raise. -/
theorem C8_read_error_escapes_send_is_structured :
    (∀ (s : Sess) (sp : Nat) (ps : List (List Char)) (ro cw : Bool) (e : Nat)
        (evs : List ReadEvent),
      waitLoopE s sp ps ro cw (.readErr e :: evs) = .error e) ∧
    (∀ (s : Sess) (pf : Bool) (d : List Char) (w : WriteOutcome),
      ∃ out, sendCommandSess s pf d w = .ok out) := by
  constructor
  · intro s sp ps ro cw e evs; rfl
  · intro s pf d w; cases w <;> exact ⟨_, rfl⟩

/-! ### Claim C9 -/

/-- Claim C9: a preflushing send first pulls pending output `d` and sets both
`seek_position` and `search_position` to the new end of the buffer; the
captured output of any following wait on the session is then a slice of the
data appended strictly after the preflush point — it contains no text (read or
unread) that was in the buffer before the preflush. -/
theorem C9_preflush_discards_unread (s : Sess) (d : List Char)
    (ps : List (List Char)) (ro cw : Bool) (feed : List (List Char))
    (s2 : Sess) (r : WaitResult)
    (hw : waitForOutputOrPrompt (advanceToEnd s d) ps ro cw feed = (s2, r)) :
    (advanceToEnd s d).seek = (s.buffer ++ d).length ∧
    (advanceToEnd s d).search = (s.buffer ++ d).length ∧
    ∃ ext, s2.buffer = (s.buffer ++ d) ++ ext ∧
      ∀ c, r.captured_output = some c →
        c = ext.take (s2.seek - (s.buffer ++ d).length) := by
  refine ⟨rfl, rfl, ?_⟩
  obtain ⟨ext, hext⟩ := wait_buffer_ext hw
  have hext2 : s2.buffer = (s.buffer ++ d) ++ ext := hext
  have hseek : (s.buffer ++ d).length ≤ s2.seek :=
    wait_seek_mono rfl ⟨Nat.le_refl _, Nat.le_refl _⟩ hw
  refine ⟨ext, hext2, ?_⟩
  intro c hc
  unfold waitForOutputOrPrompt at hw
  have hcap : r.captured_output =
      if ro then some (pySlice s2.buffer (s.buffer ++ d).length s2.seek) else none := by
    rcases waitLoop_cases (advanceToEnd s d).seek ps ro cw feed _ s2 r hw with
      ⟨_, _, _, _, hcap⟩ | ⟨_, p, i, _, _, _, _, _, _, _, hcap⟩ <;> exact hcap
  rw [hcap] at hc
  cases ro
  · simp at hc
  · simp only [if_pos rfl, Option.some.injEq, if_true] at hc
    rw [← hc, hext2, pySlice_append hseek]

/-- Witness for C9 at a concrete input: preflush on buffer `"p"` pulling
`"q"`, then a timed-out wait during which `"r"` arrives, captures exactly
`"r"` — none of the pre-preflush text. -/
theorem C9_preflush_discards_unread_witness :
    (advanceToEnd ⟨['p'], 0, 0⟩ ['q']).seek = ((['p'] ++ ['q'] : List Char)).length ∧
    (advanceToEnd ⟨['p'], 0, 0⟩ ['q']).search = ((['p'] ++ ['q'] : List Char)).length ∧
    ∃ ext, (⟨['p', 'q', 'r'], 3, 2⟩ : Sess).buffer = (['p'] ++ ['q']) ++ ext ∧
      ∀ c, (⟨.prompt_timeout_with_bytes_received, none, some ['r'], 0⟩
          : WaitResult).captured_output = some c →
        c = ext.take ((⟨['p', 'q', 'r'], 3, 2⟩ : Sess).seek -
          ((['p'] ++ ['q'] : List Char)).length) :=
  C9_preflush_discards_unread ⟨['p'], 0, 0⟩ ['q'] [['z']] true true [['r']]
    ⟨['p', 'q', 'r'], 3, 2⟩ ⟨.prompt_timeout_with_bytes_received, none, some ['r'], 0⟩
    (by decide)

/-! ### Claim C10 -/

/-- Claim C10 as stated is false: when the marker list contains the empty
string but an earlier marker in the list also has an occurrence, the earlier
marker — not the empty string — is reported.  With buffer `"a"`,
`search_position = 0 ≤ 1`, a positive timeout (one scan pass) and markers
`["a", ""]`, the reported marker is `"a"`. -/
theorem C10_counterexample :
    (waitForOutputOrPrompt ⟨['a'], 0, 0⟩ [['a'], []] true true [[]]).2.prompt = some ['a'] ∧
    (['a'] : List Char) ≠ ([] : List Char) := by decide

/-- Claim C10 (amended): for a session with `search_position ≤
length(output_buffer)`, a wait with a positive timeout (at least one scan
pass, with first captured chunk `d`) whose marker list contains the empty
string returns `prompt_detected` on the first scan pass; when no marker
earlier in the list than the empty string has an occurrence at or after
`search_position`, the empty string itself is the reported marker and its
match is located exactly at `search_position`, regardless of what the child
process has output. -/
theorem C10_empty_marker_detected (s : Sess) (pre rest : List (List Char))
    (ro cw : Bool) (d : List Char) (ds : List (List Char))
    (hsp : s.search ≤ s.buffer.length)
    (hpre : ∀ q ∈ pre, pyFind (s.buffer ++ d) q s.search = none) :
    scanPrompts (s.buffer ++ d) s.search (pre ++ [] :: rest) = some ([], s.search) ∧
    ∃ s2 r, waitForOutputOrPrompt s (pre ++ [] :: rest) ro cw (d :: ds) = (s2, r) ∧
      r.status = .prompt_detected ∧ r.prompt = some [] := by
  have hlen : s.search ≤ (s.buffer ++ d).length := by
    simp only [List.length_append]; omega
  have hempty : pyFind (s.buffer ++ d) [] s.search = some s.search := pyFind_empty hlen
  have hscan : scanPrompts (s.buffer ++ d) s.search (pre ++ [] :: rest)
      = some ([], s.search) := by
    rw [scanPrompts_append_none hpre]
    simp [scanPrompts, hempty]
  refine ⟨hscan, ?_⟩
  have hw : waitForOutputOrPrompt s (pre ++ [] :: rest) ro cw (d :: ds) =
      matchResult ⟨s.buffer ++ d, s.seek, s.search⟩ s.seek ro cw [] s.search := by
    simp only [waitForOutputOrPrompt, waitLoop, hscan]
  exact ⟨_, _, hw, rfl, rfl⟩

/-- Witness for C10 (amended) at a concrete input: on a fresh session with no
output at all and markers `["z", ""]`, the first scan pass detects the empty
string at `search_position = 0`. -/
theorem C10_empty_marker_detected_witness :
    scanPrompts (([] : List Char) ++ []) (initSess).search ([['z']] ++ [] :: []) =
      some ([], (initSess).search) ∧
    ∃ s2 r, waitForOutputOrPrompt initSess ([['z']] ++ [] :: []) true true ([] :: []) =
        (s2, r) ∧ r.status = .prompt_detected ∧ r.prompt = some [] :=
  C10_empty_marker_detected initSess [['z']] [] true true [] []
    (Nat.le_refl 0) (by decide)

end InteractiveTerminal

